import Mathlib

/-!
Verification of the 90-mins-video-editor core (`VideoPreview.tsx`,
`geminiService.ts`) against its natural-language specification.

Times and durations are modelled as exact rationals (ℚ); `Math.floor` is
`⌊·⌋ : ℚ → ℤ`. JavaScript array indexing (which yields `undefined` out of
range, including at negative indices) is modelled by an `Option`-valued
lookup. Canvas drawing is modelled as the list of drawing commands a frame
issues; the export pipeline's asynchronous control flow is modelled as an
event trace in the order the code's awaited, straight-line flow performs the
steps, and the recorder's `onstop`/`onerror` handlers as a state transformer
over delivered recorder events.
-/

namespace VideoEditor

/-- A caption word, `{ word, start, end }` from `types.ts` / the transcription
schema. -/
structure Word where
  word : String
  start : ℚ
  «end» : ℚ
deriving DecidableEq, Repr

/-- Constant `BASE_FONT_SIZE` from `VideoPreview.tsx` (pt). -/
def BASE_FONT_SIZE : ℚ := 32

/-- Constant `CANVAS_WIDTH` from `VideoPreview.tsx`. -/
def CANVAS_WIDTH : ℚ := 1080

/-- Constant `CANVAS_HEIGHT` from `VideoPreview.tsx`. -/
def CANVAS_HEIGHT : ℚ := 1920

/-- Constant `MARGIN_X` from `VideoPreview.tsx`. -/
def MARGIN_X : ℚ := 20

/-- Constant `MARGIN_Y_TOP` from `VideoPreview.tsx`. -/
def MARGIN_Y_TOP : ℚ := 40

/-- Constant `MARGIN_Y_BOTTOM` from `VideoPreview.tsx`. -/
def MARGIN_Y_BOTTOM : ℚ := 20

/-- Constant `CAPTION_COLOR` from `VideoPreview.tsx`. -/
def CAPTION_COLOR : String := "#FFFF00"

/-- Constant `CAPTION_OUTLINE_COLOR` from `VideoPreview.tsx`. -/
def CAPTION_OUTLINE_COLOR : String := "#000000"

/-- The function `getCurrentImageIndex` from `VideoPreview.tsx`:
```
if (audioDuration === 0 || loadedImages.current.length === 0) return 0;
const durationPerImage = audioDuration / loadedImages.current.length;
return Math.min(loadedImages.current.length - 1, Math.floor(time / durationPerImage));
```
`numImages` is `loadedImages.current.length`. The result is an integer and, as
in the source, is only clamped from above. -/
def getCurrentImageIndex (audioDuration : ℚ) (numImages : ℕ) (time : ℚ) : ℤ :=
  if audioDuration = 0 ∨ numImages = 0 then 0
  else
    let durationPerImage := audioDuration / (numImages : ℚ)
    min ((numImages : ℤ) - 1) ⌊time / durationPerImage⌋

/-- The predicate `c => time >= c.start && time < c.end` from `VideoPreview.tsx`. -/
def isActive (time : ℚ) (c : Word) : Bool :=
  decide (c.start ≤ time) && decide (time < c.«end»)

/-- The active-word lookup from `VideoPreview.tsx`
(`captions.find(c => time >= c.start && time < c.end)`), used identically in
`drawCanvasFrame`, the preview animation loop and the seek handler. -/
def activeWordAt (time : ℚ) (captions : List Word) : Option Word :=
  captions.find? (isActive time)

/-- The caption font-size computation from `drawCanvasFrame`:
```
ctx.font = `bold ${BASE_FONT_SIZE}pt ...`;
const textWidth = ctx.measureText(activeWord.word).width;
let finalFontSize = BASE_FONT_SIZE;
if (textWidth > maxWidth) finalFontSize = BASE_FONT_SIZE * (maxWidth / textWidth);
```
`textWidth` is the width the canvas reports for the word at `BASE_FONT_SIZE`;
`maxWidth = canvas.width - MARGIN_X * 2`, with the canvas being the export
canvas of width `CANVAS_WIDTH` (the only canvas this code draws to). -/
def finalFontSize (textWidth : ℚ) : ℚ :=
  let maxWidth := CANVAS_WIDTH - MARGIN_X * 2
  if textWidth > maxWidth then BASE_FONT_SIZE * (maxWidth / textWidth)
  else BASE_FONT_SIZE

/-- Following the spec's words, for comparison with `finalFontSize`: the largest
font size not exceeding `BASE_FONT_SIZE` such that the word's measured bounding
box — of width `s · unitWidth` and height `s · unitHeight` at font size `s`,
measurement being linear in the font size — fits within
`(CANVAS_WIDTH - 2 · MARGIN_X, CANVAS_HEIGHT - MARGIN_Y_TOP - MARGIN_Y_BOTTOM)`. -/
def specFontSize (unitWidth unitHeight : ℚ) : ℚ :=
  min BASE_FONT_SIZE
    (min ((CANVAS_WIDTH - MARGIN_X * 2) / unitWidth)
      ((CANVAS_HEIGHT - MARGIN_Y_TOP - MARGIN_Y_BOTTOM) / unitHeight))

/-- A parsed caption entry as the validation in `geminiService.ts` sees it:
each field may be absent (`undefined` in JavaScript). -/
structure RawWord where
  word : Option String
  start : Option ℚ
  «end» : Option ℚ
deriving DecidableEq, Repr

/-- The result of `JSON.parse` as far as `generateCaptions` inspects it:
either an array of entries, or some non-array value (such as the object `{}`). -/
inductive ParsedResponse where
  | arr : List RawWord → ParsedResponse
  | nonArray : ParsedResponse
deriving DecidableEq, Repr

/-- The validation block of `generateCaptions` (`geminiService.ts`):
```
if (!Array.isArray(captions)) throw new Error("... not an array");
if (captions.length > 0 && (captions[0].word === undefined
    || captions[0].start === undefined)) throw new Error("... missing required fields");
return captions;
``` -/
def validateCaptions : ParsedResponse → Except String (List RawWord)
  | ParsedResponse.nonArray =>
    Except.error "Invalid caption format received from API: not an array"
  | ParsedResponse.arr [] => Except.ok []
  | ParsedResponse.arr (c :: rest) =>
    if c.word = none ∨ c.start = none then
      Except.error "Invalid caption format received from API: missing required fields"
    else Except.ok (c :: rest)

/-- The function `generateCaptions` after `JSON.parse` has succeeded: the
surrounding `catch` re-throws any validation failure as the generic
communication error (the validation messages never contain "JSON.parse", so
the JSON-specific branch of the catch is not taken). -/
def generateCaptions (resp : ParsedResponse) : Except String (List RawWord) :=
  match validateCaptions resp with
  | Except.ok cs => Except.ok cs
  | Except.error _ =>
    Except.error "Failed to communicate with the generative AI model."

/-- A decoded image handle (`HTMLImageElement`) with its intrinsic dimensions. -/
structure Image where
  width : ℚ
  height : ℚ
deriving DecidableEq, Repr

/-- JavaScript array indexing `arr[i]`: `undefined` (here `none`) when `i` is
negative or out of range. -/
def jsIndex {α : Type} (l : List α) (i : ℤ) : Option α :=
  if 0 ≤ i then l[i.toNat]? else none

/-- One canvas-context drawing command issued by `drawCanvasFrame`. -/
inductive DrawOp where
  | clearRect (x y w h : ℚ)
  | setFillStyle (color : String)
  | setStrokeStyle (color : String)
  | fillRect (x y w h : ℚ)
  | drawImage (img : Image) (dx dy dw dh : ℚ)
  | setGlobalAlpha (a : ℚ)
  | setFont (size : ℚ)
  | strokeText (s : String) (x y : ℚ)
  | fillText (s : String) (x y : ℚ)
deriving DecidableEq, Repr

/-- The `object-cover` placement computed in `drawCanvasFrame`: destination
`(dx, dy, dWidth, dHeight)` for the background image on the canvas. -/
def coverFit (img : Image) : ℚ × ℚ × ℚ × ℚ :=
  let canvasAspect := CANVAS_WIDTH / CANVAS_HEIGHT
  let imageAspect := img.width / img.height
  if imageAspect > canvasAspect then
    let dHeight := CANVAS_HEIGHT
    let dWidth := dHeight * imageAspect
    ((CANVAS_WIDTH - dWidth) / 2, 0, dWidth, dHeight)
  else
    let dWidth := CANVAS_WIDTH
    let dHeight := dWidth / imageAspect
    (0, (CANVAS_HEIGHT - dHeight) / 2, dWidth, dHeight)

/-- The function `drawCanvasFrame` from `VideoPreview.tsx` as the list of
drawing commands it issues, in source order: clear, black fill, the background
image (skipped when the handle at the computed index is `undefined`), the
watermark at reduced opacity (when loaded), and the active caption word
(stroke under fill, centred). `measureAtBase word` is the width
`ctx.measureText(word).width` reports at `BASE_FONT_SIZE`. -/
def drawCanvasFrame (measureAtBase : String → ℚ) (loadedImages : List Image)
    (watermark : Option Image) (captions : List Word) (audioDuration : ℚ)
    (time : ℚ) : List DrawOp :=
  let imageIndex := getCurrentImageIndex audioDuration loadedImages.length time
  let bgOps := [DrawOp.clearRect 0 0 CANVAS_WIDTH CANVAS_HEIGHT,
                DrawOp.setFillStyle "black",
                DrawOp.fillRect 0 0 CANVAS_WIDTH CANVAS_HEIGHT]
  let imgOps := match jsIndex loadedImages imageIndex with
    | none => []
    | some img =>
      let (dx, dy, dw, dh) := coverFit img
      [DrawOp.drawImage img dx dy dw dh]
  let wmOps := match watermark with
    | none => []
    | some wm =>
      let scale := (100 : ℚ) / wm.height
      let wmWidth := wm.width * scale
      [DrawOp.setGlobalAlpha (8/10),
       DrawOp.drawImage wm (CANVAS_WIDTH - wmWidth - 40) 120 wmWidth 100,
       DrawOp.setGlobalAlpha 1]
  let capOps := match activeWordAt time captions with
    | none => []
    | some w =>
      let fs := finalFontSize (measureAtBase w.word)
      [DrawOp.setFont fs,
       DrawOp.setFillStyle CAPTION_COLOR,
       DrawOp.setStrokeStyle CAPTION_OUTLINE_COLOR,
       DrawOp.strokeText w.word (CANVAS_WIDTH / 2) (CANVAS_HEIGHT / 2),
       DrawOp.fillText w.word (CANVAS_WIDTH / 2) (CANVAS_HEIGHT / 2)]
  bgOps ++ imgOps ++ wmOps ++ capOps

/-- The observable steps of one `startDownload` run, in the order the code's
straight-line/awaited control flow performs them. -/
inductive ExportEvent where
  | createOffscreenCanvas
  | getContext2d
  | createOfflineAudio
  | setAudioSrc
  | captureStreamStart
  | createAudioContext
  | createMediaElementSource
  | createMediaStreamDestination
  | connectSourceToDestination
  | createMediaRecorder
  | installRecorderHandlers
  | recorderStart
  | audioLoad
  | audioBecomesPlayable
  | audioMuted
  | audioPlay
  | frameCapture (t : ℚ)
  | recorderStopCall
deriving DecidableEq, Repr

/-- The event trace of a `startDownload` run (`VideoPreview.tsx`), given the
times at which the render loop captures frames: the code builds the canvas,
offline audio, audio graph and recorder, installs the recorder handlers,
calls `recorder.start()`, *then* awaits `canplaythrough`, mutes and plays the
audio, runs the capture loop, and finally calls `recorder.stop()`. -/
def startDownloadTrace (frameTimes : List ℚ) : List ExportEvent :=
  [ExportEvent.createOffscreenCanvas, ExportEvent.getContext2d,
   ExportEvent.createOfflineAudio, ExportEvent.setAudioSrc,
   ExportEvent.captureStreamStart, ExportEvent.createAudioContext,
   ExportEvent.createMediaElementSource, ExportEvent.createMediaStreamDestination,
   ExportEvent.connectSourceToDestination, ExportEvent.createMediaRecorder,
   ExportEvent.installRecorderHandlers, ExportEvent.recorderStart,
   ExportEvent.audioLoad, ExportEvent.audioBecomesPlayable,
   ExportEvent.audioMuted, ExportEvent.audioPlay]
  ++ frameTimes.map ExportEvent.frameCapture
  ++ [ExportEvent.recorderStopCall]

/-- One reading of the offline audio element's state at a capture tick. -/
structure AudioObs where
  currentTime : ℚ
  paused : Bool
  ended : Bool
deriving DecidableEq, Repr

/-- The recorder's `MediaRecorder.state` as the render loop's guard inspects it. -/
inductive RecorderState where
  | inactive
  | recording
deriving DecidableEq, Repr

/-- The `renderLoop` of `startDownload`, run over the successive observations
of the offline audio element:
```
if (offlineAudio.paused || offlineAudio.ended) {
  if (recorder.state === 'recording') recorder.stop();
  return;
}
drawCanvasFrame(ctx, offlineAudio.currentTime);
```
Returns the times passed to `drawCanvasFrame` and whether `recorder.stop()`
was called. -/
def renderLoop (recState : RecorderState) : List AudioObs → List ℚ × Bool
  | [] => ([], false)
  | o :: rest =>
    if o.paused || o.ended then
      ([], decide (recState = RecorderState.recording))
    else
      let r := renderLoop recState rest
      (o.currentTime :: r.1, r.2)

/-- What the recorder handlers installed by `startDownload` mutate. -/
structure ExportRunState where
  audioContextClosed : Bool
  downloadTriggered : Bool
  settled : Option (Except String Unit)

/-- An event delivered to the `MediaRecorder` handlers of `startDownload`. -/
inductive RecorderEvent where
  | stop
  | error (e : String)
deriving DecidableEq, Repr

/-- Promise settle-once semantics: the first resolve/reject wins. -/
def settle (s : Option (Except String Unit)) (r : Except String Unit) :
    Option (Except String Unit) :=
  match s with
  | some v => some v
  | none => some r

/-- The handlers installed in `startDownload`:
`onstop` assembles the accumulated chunks into a blob, triggers the download
(`a.click()`), closes the `AudioContext` and resolves — with no check that an
error occurred; `onerror` closes the `AudioContext` and rejects with the event. -/
def handleRecorderEvent (s : ExportRunState) : RecorderEvent → ExportRunState
  | RecorderEvent.stop =>
    { audioContextClosed := true, downloadTriggered := true,
      settled := settle s.settled (Except.ok ()) }
  | RecorderEvent.error e =>
    { s with audioContextClosed := true,
             settled := settle s.settled (Except.error e) }

/-- The handler state before any recorder event has fired. -/
def initialExportRunState : ExportRunState :=
  { audioContextClosed := false, downloadTriggered := false, settled := none }

/-- The final handler state after a sequence of recorder events. -/
def runRecorderEvents (evs : List RecorderEvent) : ExportRunState :=
  evs.foldl handleRecorderEvent initialExportRunState

/-- When the `audioDuration === 0 || length === 0` guard does not fire,
`getCurrentImageIndex` is the floor expression clamped from above only. -/
lemma getCurrentImageIndex_of_ne (d t : ℚ) (n : ℕ) (hd : d ≠ 0) (hn : n ≠ 0) :
    getCurrentImageIndex d n t = min ((n : ℤ) - 1) ⌊t / (d / (n : ℚ))⌋ := by
  simp [getCurrentImageIndex, hd, hn]

/-- For a positive duration and a nonnegative time the floor term is nonnegative. -/
lemma floor_time_nonneg (d t : ℚ) (n : ℕ) (hd : 0 < d) (hn : 1 ≤ n) (ht : 0 ≤ t) :
    0 ≤ ⌊t / (d / (n : ℚ))⌋ := by
  have hnpos : (0 : ℚ) < (n : ℚ) := by exact_mod_cast Nat.lt_of_lt_of_le Nat.zero_lt_one hn
  have hdpi : (0 : ℚ) < d / (n : ℚ) := div_pos hd hnpos
  exact Int.floor_nonneg.mpr (div_nonneg ht hdpi.le)

/-- C1 counterexample: with `audioDuration = -9`, `imageCount = 3`, `t = 3` the code
returns `-1`. The claim requires `0` whenever the duration is `≤ 0` (the code's
guard tests `=== 0` only) and requires the result to lie in `[0, 2]`; both fail. -/
theorem C1_counterexample :
    getCurrentImageIndex (-9) 3 3 = -1 ∧
    getCurrentImageIndex (-9) 3 3 ≠ 0 ∧
    ¬ (0 ≤ getCurrentImageIndex (-9) 3 3) := by
  refine ⟨?_, ?_, ?_⟩ <;> norm_num [getCurrentImageIndex]

/-- C1 (amended): for `d > 0`, `n ≥ 1` and `t ≥ 0`, `getCurrentImageIndex` equals
`floor (t / (d / n))` clamped to `[0, n-1]` (the lower clamp being automatic in this
regime — the code itself only applies `min`), it returns `0` when `d = 0` or `n = 0`
(an equality guard, not `d ≤ 0`), and the concrete even-split scenario
`d = 9, n = 3` evaluates as the claim lists. -/
theorem C1_image_index_amended (d t : ℚ) (n : ℕ) (hd : 0 < d) (hn : 1 ≤ n) (ht : 0 ≤ t) :
    getCurrentImageIndex d n t = min ((n : ℤ) - 1) ⌊t / (d / (n : ℚ))⌋ ∧
    0 ≤ getCurrentImageIndex d n t ∧
    getCurrentImageIndex d n t ≤ (n : ℤ) - 1 ∧
    getCurrentImageIndex d 0 t = 0 ∧
    getCurrentImageIndex 0 n t = 0 ∧
    getCurrentImageIndex 9 3 0 = 0 ∧
    getCurrentImageIndex 9 3 (29/10) = 0 ∧
    getCurrentImageIndex 9 3 3 = 1 ∧
    getCurrentImageIndex 9 3 (89/10) = 2 ∧
    getCurrentImageIndex 9 3 9 = 2 := by
  have hd0 : d ≠ 0 := ne_of_gt hd
  have hn0 : n ≠ 0 := Nat.one_le_iff_ne_zero.mp hn
  have heq := getCurrentImageIndex_of_ne d t n hd0 hn0
  have hfl := floor_time_nonneg d t n hd hn ht
  have hn1 : (0 : ℤ) ≤ (n : ℤ) - 1 := by
    have : (1 : ℤ) ≤ (n : ℤ) := by exact_mod_cast hn
    omega
  refine ⟨heq, ?_, ?_, ?_, ?_, ?_, ?_, ?_, ?_, ?_⟩
  · rw [heq]; exact le_min hn1 hfl
  · rw [heq]; exact min_le_left _ _
  · simp [getCurrentImageIndex]
  · simp [getCurrentImageIndex]
  all_goals norm_num [getCurrentImageIndex]

/-- C1 witness: the amended theorem instantiated at `d = 9`, `n = 3`, `t = 0`. -/
theorem C1_image_index_amended_witness :
    (0 : ℚ) < 9 ∧ 1 ≤ 3 ∧ (0 : ℚ) ≤ 0 ∧ getCurrentImageIndex 9 3 0 = 0 :=
  ⟨by norm_num, by norm_num,
   le_refl 0, ((((((C1_image_index_amended 9 0 3 (by norm_num) (by norm_num)
      (le_refl 0)).2).2).2).2).2).1⟩

/-- C8: for a fixed `n ≥ 1` and `d > 0`, the image index is monotone in time on
`[0, d)` and lies in `[0, n-1]` there. -/
theorem C8_image_index_monotone (d t₁ t₂ : ℚ) (n : ℕ) (hn : 1 ≤ n) (hd : 0 < d)
    (h0 : 0 ≤ t₁) (h12 : t₁ ≤ t₂) (_hlt : t₂ < d) :
    getCurrentImageIndex d n t₁ ≤ getCurrentImageIndex d n t₂ ∧
    0 ≤ getCurrentImageIndex d n t₁ ∧
    getCurrentImageIndex d n t₁ ≤ (n : ℤ) - 1 := by
  have hd0 : d ≠ 0 := ne_of_gt hd
  have hn0 : n ≠ 0 := Nat.one_le_iff_ne_zero.mp hn
  have hnpos : (0 : ℚ) < (n : ℚ) := by
    exact_mod_cast Nat.lt_of_lt_of_le Nat.zero_lt_one hn
  have hdpi : (0 : ℚ) < d / (n : ℚ) := div_pos hd hnpos
  have he1 := getCurrentImageIndex_of_ne d t₁ n hd0 hn0
  have he2 := getCurrentImageIndex_of_ne d t₂ n hd0 hn0
  have hfl := floor_time_nonneg d t₁ n hd hn h0
  have hn1 : (0 : ℤ) ≤ (n : ℤ) - 1 := by
    have : (1 : ℤ) ≤ (n : ℤ) := by exact_mod_cast hn
    omega
  refine ⟨?_, ?_, ?_⟩
  · rw [he1, he2]
    refine min_le_min (le_refl _) (Int.floor_le_floor ?_)
    gcongr
  · rw [he1]; exact le_min hn1 hfl
  · rw [he1]; exact min_le_left _ _

/-- C8 witness: instantiated at `d = 9`, `n = 3`, `t₁ = 0`, `t₂ = 1`. -/
theorem C8_image_index_monotone_witness :
    getCurrentImageIndex 9 3 0 ≤ getCurrentImageIndex 9 3 1 ∧
    0 ≤ getCurrentImageIndex 9 3 0 ∧
    getCurrentImageIndex 9 3 0 ≤ (3 : ℤ) - 1 :=
  C8_image_index_monotone 9 0 1 3 (by norm_num) (by norm_num) (le_refl 0)
    (by norm_num) (by norm_num)

/-- On a one-word caption list the lookup is the bare interval test. -/
lemma activeWordAt_singleton (t : ℚ) (w : Word) :
    activeWordAt t [w] = if w.start ≤ t ∧ t < w.«end» then some w else none := by
  rw [activeWordAt, List.find?_singleton]
  simp only [isActive, Bool.and_eq_true, decide_eq_true_eq]

/-- C2 counterexample: at `t = 3` both words of
`[{b, 2, 5}, {a, 1, 5}]` are active and `a` starts earlier (`1 < 2`), yet the
lookup returns `b` — `Array.prototype.find` returns the first match in *list
order*, not the earliest-starting word. -/
theorem C2_counterexample :
    activeWordAt 3 [⟨"b", 2, 5⟩, ⟨"a", 1, 5⟩] = some ⟨"b", 2, 5⟩ ∧
    (Word.mk "a" 1 5).start ≤ 3 ∧ (3 : ℚ) < (Word.mk "a" 1 5).«end» ∧
    (Word.mk "a" 1 5).start < (Word.mk "b" 2 5).start := by
  refine ⟨?_, by norm_num, by norm_num, by norm_num⟩
  rw [activeWordAt, List.find?_cons_of_pos]
  simp only [isActive, Bool.and_eq_true, decide_eq_true_eq]
  norm_num

/-- C2 (amended): `activeWordAt` returns the *first word in list order* with
`start ≤ t < end` (so the earliest-starting one whenever the list is sorted by
`start`), or `none` exactly when no word satisfies it; the `end` bound is
exclusive, as the concrete scenario `[{hi, 1.0, 1.5}]` shows. -/
theorem C2_active_word_amended (t : ℚ) (ws : List Word) :
    (∀ w, activeWordAt t ws = some w → w.start ≤ t ∧ t < w.«end» ∧
      ∃ pre post, ws = pre ++ w :: post ∧
        ∀ v ∈ pre, ¬ (v.start ≤ t ∧ t < v.«end»)) ∧
    (∀ w pre post, ws = pre ++ w :: post → w.start ≤ t → t < w.«end» →
      (∀ v ∈ pre, ¬ (v.start ≤ t ∧ t < v.«end»)) → activeWordAt t ws = some w) ∧
    (activeWordAt t ws = none ↔ ∀ w ∈ ws, ¬ (w.start ≤ t ∧ t < w.«end»)) ∧
    activeWordAt (9/10) [⟨"hi", 1, 3/2⟩] = none ∧
    activeWordAt (12/10) [⟨"hi", 1, 3/2⟩] = some ⟨"hi", 1, 3/2⟩ ∧
    activeWordAt (3/2) [⟨"hi", 1, 3/2⟩] = none := by
  refine ⟨?_, ?_, ?_, ?_, ?_, ?_⟩
  · intro w h
    obtain ⟨hp, pre, post, hws, hall⟩ := List.find?_eq_some.mp h
    simp only [isActive, Bool.and_eq_true, decide_eq_true_eq] at hp
    refine ⟨hp.1, hp.2, pre, post, hws, ?_⟩
    intro v hv
    have := hall v hv
    simp only [isActive, Bool.not_eq_true', Bool.and_eq_false_iff,
      decide_eq_false_iff_not] at this
    tauto
  · intro w pre post hws hs he hpre
    subst hws
    rw [activeWordAt, List.find?_append]
    have hnone : pre.find? (isActive t) = none := by
      rw [List.find?_eq_none]
      intro v hv
      simp only [isActive, Bool.and_eq_true, decide_eq_true_eq]
      exact fun hc => hpre v hv hc
    rw [hnone, Option.none_or, List.find?_cons_of_pos]
    simp only [isActive, Bool.and_eq_true, decide_eq_true_eq]
    exact ⟨hs, he⟩
  · rw [activeWordAt, List.find?_eq_none]
    constructor
    · intro hall w hw
      have := hall w hw
      simp only [isActive, Bool.and_eq_true, decide_eq_true_eq] at this
      exact this
    · intro hall w hw
      simp only [isActive, Bool.and_eq_true, decide_eq_true_eq]
      exact hall w hw
  · rw [activeWordAt_singleton, if_neg]; norm_num
  · rw [activeWordAt_singleton, if_pos]; norm_num
  · rw [activeWordAt_singleton, if_neg]; norm_num

/-- C2 witness: the amended theorem instantiated at the spec's concrete scenario. -/
theorem C2_active_word_amended_witness :
    activeWordAt (12/10) [⟨"hi", 1, 3/2⟩] = some ⟨"hi", 1, 3/2⟩ :=
  (C2_active_word_amended (12/10) [⟨"hi", 1, 3/2⟩]).2.2.2.2.1

/-- The definition `specFontSize` really is the largest size not exceeding the
base whose box fits both bounds (sanity of the spec-side formalisation). -/
lemma specFontSize_is_largest (uw uh : ℚ) (hw : 0 < uw) (hh : 0 < uh) :
    specFontSize uw uh ≤ BASE_FONT_SIZE ∧
    specFontSize uw uh * uw ≤ CANVAS_WIDTH - MARGIN_X * 2 ∧
    specFontSize uw uh * uh ≤ CANVAS_HEIGHT - MARGIN_Y_TOP - MARGIN_Y_BOTTOM ∧
    ∀ s, s ≤ BASE_FONT_SIZE → s * uw ≤ CANVAS_WIDTH - MARGIN_X * 2 →
      s * uh ≤ CANVAS_HEIGHT - MARGIN_Y_TOP - MARGIN_Y_BOTTOM →
      s ≤ specFontSize uw uh := by
  refine ⟨min_le_left _ _, ?_, ?_, ?_⟩
  · calc specFontSize uw uh * uw
        ≤ ((CANVAS_WIDTH - MARGIN_X * 2) / uw) * uw := by
          apply mul_le_mul_of_nonneg_right _ hw.le
          exact le_trans (min_le_right _ _) (min_le_left _ _)
      _ = CANVAS_WIDTH - MARGIN_X * 2 := div_mul_cancel₀ _ (ne_of_gt hw)
  · calc specFontSize uw uh * uh
        ≤ ((CANVAS_HEIGHT - MARGIN_Y_TOP - MARGIN_Y_BOTTOM) / uh) * uh := by
          apply mul_le_mul_of_nonneg_right _ hh.le
          exact le_trans (min_le_right _ _) (min_le_right _ _)
      _ = CANVAS_HEIGHT - MARGIN_Y_TOP - MARGIN_Y_BOTTOM := div_mul_cancel₀ _ (ne_of_gt hh)
  · intro s hs hsw hsh
    exact le_min hs (le_min ((le_div_iff₀ hw).mpr hsw) ((le_div_iff₀ hh).mpr hsh))

/-- C3 counterexample: take a word whose measured width per pt is `1` (so
`textWidth = 32` at the base size) and measured height per pt is `100`. The code
keeps the base size `32`, whose box height `3200` exceeds the vertical budget
`1860`, even though the size `93/5 = 18.6` (≤ base) fits both bounds — so the code
does not choose "the largest font size ≤ base whose bounding box fits
`(canvasWidth - 2·MARGIN_X, canvasHeight - MARGIN_Y_TOP - MARGIN_Y_BOTTOM)`". -/
theorem C3_counterexample :
    finalFontSize (BASE_FONT_SIZE * 1) = 32 ∧
    ¬ ((32 : ℚ) * 100 ≤ CANVAS_HEIGHT - MARGIN_Y_TOP - MARGIN_Y_BOTTOM) ∧
    (93/5 : ℚ) ≤ BASE_FONT_SIZE ∧
    (93/5 : ℚ) * 1 ≤ CANVAS_WIDTH - MARGIN_X * 2 ∧
    (93/5 : ℚ) * 100 ≤ CANVAS_HEIGHT - MARGIN_Y_TOP - MARGIN_Y_BOTTOM ∧
    specFontSize 1 100 = 93/5 ∧
    finalFontSize (BASE_FONT_SIZE * 1) ≠ specFontSize 1 100 := by
  refine ⟨?_, ?_, ?_, ?_, ?_, ?_, ?_⟩ <;>
    norm_num [finalFontSize, specFontSize, BASE_FONT_SIZE, CANVAS_WIDTH,
      CANVAS_HEIGHT, MARGIN_X, MARGIN_Y_TOP, MARGIN_Y_BOTTOM]

/-- C3 (amended): the compositor fits the caption by *width only*, in a single
proportional step with no height constraint and no minimum floor: for a word of
positive measured width `textWidth` at the base size (width `s · textWidth / 32`
at size `s`), `finalFontSize` is the largest size not exceeding
`BASE_FONT_SIZE` whose measured *width* fits `CANVAS_WIDTH - 2 · MARGIN_X`. -/
theorem C3_font_size_amended (textWidth : ℚ) (ht : 0 < textWidth) :
    finalFontSize textWidth ≤ BASE_FONT_SIZE ∧
    finalFontSize textWidth * (textWidth / BASE_FONT_SIZE) ≤
      CANVAS_WIDTH - MARGIN_X * 2 ∧
    ∀ s, s ≤ BASE_FONT_SIZE → s * (textWidth / BASE_FONT_SIZE) ≤
      CANVAS_WIDTH - MARGIN_X * 2 → s ≤ finalFontSize textWidth := by
  have ht0 : textWidth ≠ 0 := ne_of_gt ht
  simp only [finalFontSize, BASE_FONT_SIZE, CANVAS_WIDTH, MARGIN_X]
  norm_num only
  split_ifs with h
  · have h1 : (32 : ℚ) * (1040 / textWidth) = 33280 / textWidth := by ring
    refine ⟨?_, ?_, ?_⟩
    · rw [h1, div_le_iff₀ ht]; linarith
    · have : (32 : ℚ) * (1040 / textWidth) * (textWidth / 32) = 1040 := by
        field_simp
      rw [this]
    · intro s hs hfit
      rw [h1, le_div_iff₀ ht]
      have : s * (textWidth / 32) * 32 ≤ 1040 * 32 := by
        apply mul_le_mul_of_nonneg_right hfit; norm_num
      calc s * textWidth = s * (textWidth / 32) * 32 := by ring
        _ ≤ 1040 * 32 := this
        _ = 33280 := by norm_num
  · push_neg at h
    refine ⟨le_refl _, ?_, fun s hs _ => hs⟩
    have : (32 : ℚ) * (textWidth / 32) = textWidth := by ring
    rw [this]; exact h

/-- C3 witness: the amended theorem instantiated at `textWidth = 2080`
(a word twice as wide as the horizontal budget at the base size). -/
theorem C3_font_size_amended_witness :
    (0 : ℚ) < 2080 ∧
    (finalFontSize 2080 ≤ BASE_FONT_SIZE ∧
     finalFontSize 2080 * (2080 / BASE_FONT_SIZE) ≤ CANVAS_WIDTH - MARGIN_X * 2 ∧
     ∀ s, s ≤ BASE_FONT_SIZE → s * (2080 / BASE_FONT_SIZE) ≤
       CANVAS_WIDTH - MARGIN_X * 2 → s ≤ finalFontSize 2080) :=
  ⟨by norm_num, C3_font_size_amended 2080 (by norm_num)⟩

/-- C7: a non-array response, or a non-empty array whose first element is missing
`word` or `start`, makes `generateCaptions` raise an error; an `.ok []` result
can only come from a response that actually was the empty array — a malformed
response is never silently replaced by an empty caption list. In particular the
response `{}` (not an array) raises an error. -/
theorem C7_malformed_response_fails (resp : ParsedResponse) :
    (resp = ParsedResponse.nonArray →
      generateCaptions resp =
        Except.error "Failed to communicate with the generative AI model.") ∧
    (∀ c rest, resp = ParsedResponse.arr (c :: rest) →
      (c.word = none ∨ c.start = none) →
      generateCaptions resp =
        Except.error "Failed to communicate with the generative AI model.") ∧
    (generateCaptions resp = Except.ok [] → resp = ParsedResponse.arr []) ∧
    generateCaptions ParsedResponse.nonArray =
      Except.error "Failed to communicate with the generative AI model." := by
  refine ⟨?_, ?_, ?_, rfl⟩
  · rintro rfl; rfl
  · rintro c rest rfl hbad
    simp [generateCaptions, validateCaptions, if_pos hbad]
  · intro h
    cases resp with
    | nonArray => exact absurd h (by simp [generateCaptions, validateCaptions])
    | arr cs =>
      cases cs with
      | nil => rfl
      | cons c rest =>
        by_cases hbad : c.word = none ∨ c.start = none
        · simp [generateCaptions, validateCaptions, if_pos hbad] at h
        · simp [generateCaptions, validateCaptions, if_neg hbad] at h

/-- C7 witness: the theorem applied to the non-array response `{}`. -/
theorem C7_malformed_response_fails_witness :
    generateCaptions ParsedResponse.nonArray =
      Except.error "Failed to communicate with the generative AI model." :=
  (C7_malformed_response_fails ParsedResponse.nonArray).1 rfl

/-- C10: `generateCaptions` errors iff the parsed response is not an array or is
a non-empty array whose first element is missing `word` or `start`; only the
first element is validated — an array whose later elements are arbitrary (even
with every field absent) is returned unchanged, and the empty array is accepted
and returned as-is. -/
theorem C10_validation_first_element_only (resp : ParsedResponse) :
    ((∃ e, generateCaptions resp = Except.error e) ↔
      resp = ParsedResponse.nonArray ∨
        ∃ c rest, resp = ParsedResponse.arr (c :: rest) ∧
          (c.word = none ∨ c.start = none)) ∧
    (∀ c rest, c.word ≠ none → c.start ≠ none →
      generateCaptions (ParsedResponse.arr (c :: rest)) = Except.ok (c :: rest)) ∧
    generateCaptions (ParsedResponse.arr []) = Except.ok [] ∧
    generateCaptions (ParsedResponse.arr
        [⟨some "a", some 0, some 1⟩, ⟨none, none, none⟩]) =
      Except.ok [⟨some "a", some 0, some 1⟩, ⟨none, none, none⟩] := by
  refine ⟨⟨?_, ?_⟩, ?_, rfl, rfl⟩
  · intro ⟨e, he⟩
    cases resp with
    | nonArray => exact Or.inl rfl
    | arr cs =>
      cases cs with
      | nil => exact absurd he (by simp [generateCaptions, validateCaptions])
      | cons c rest =>
        by_cases hbad : c.word = none ∨ c.start = none
        · exact Or.inr ⟨c, rest, rfl, hbad⟩
        · exact absurd he (by simp [generateCaptions, validateCaptions, if_neg hbad])
  · rintro (rfl | ⟨c, rest, rfl, hbad⟩)
    · exact ⟨_, rfl⟩
    · exact ⟨"Failed to communicate with the generative AI model.",
        by simp [generateCaptions, validateCaptions, if_pos hbad]⟩
  · intro c rest hw hs
    have hbad : ¬ (c.word = none ∨ c.start = none) := by tauto
    simp [generateCaptions, validateCaptions, if_neg hbad]

/-- C10 witness: the only-first-element clause applied to a well-formed head
followed by an entry with every field absent. -/
theorem C10_validation_first_element_only_witness :
    generateCaptions (ParsedResponse.arr
        [⟨some "a", some 0, some 1⟩, ⟨none, none, none⟩]) =
      Except.ok [⟨some "a", some 0, some 1⟩, ⟨none, none, none⟩] :=
  (C10_validation_first_element_only
      (ParsedResponse.arr [⟨some "a", some 0, some 1⟩, ⟨none, none, none⟩])).2.1
    ⟨some "a", some 0, some 1⟩ [⟨none, none, none⟩] (by simp) (by simp)

/-- C9: `drawCanvasFrame` is total — for any time `t` (also outside
`[0, totalDuration)`) and any asset state it produces a frame. When the image
handle at the computed index is absent it skips only the background-image draw:
the frame still opens with the clear and the black fill, the only image drawn
(if any) is the watermark, the watermark is drawn whenever it is loaded, and the
active caption word is still stroked and filled. -/
theorem C9_draw_frame_skips_missing_image (measureAtBase : String → ℚ)
    (imgs : List Image) (wm : Option Image) (caps : List Word) (d t : ℚ)
    (habs : jsIndex imgs (getCurrentImageIndex d imgs.length t) = none) :
    (drawCanvasFrame measureAtBase imgs wm caps d t).take 3 =
      [DrawOp.clearRect 0 0 CANVAS_WIDTH CANVAS_HEIGHT,
       DrawOp.setFillStyle "black",
       DrawOp.fillRect 0 0 CANVAS_WIDTH CANVAS_HEIGHT] ∧
    (∀ img dx dy dw dh,
      DrawOp.drawImage img dx dy dw dh ∈ drawCanvasFrame measureAtBase imgs wm caps d t →
      wm = some img) ∧
    (∀ w, wm = some w →
      DrawOp.drawImage w (CANVAS_WIDTH - w.width * (100 / w.height) - 40) 120
          (w.width * (100 / w.height)) 100 ∈
        drawCanvasFrame measureAtBase imgs wm caps d t) ∧
    (∀ w, activeWordAt t caps = some w →
      DrawOp.strokeText w.word (CANVAS_WIDTH / 2) (CANVAS_HEIGHT / 2) ∈
        drawCanvasFrame measureAtBase imgs wm caps d t ∧
      DrawOp.fillText w.word (CANVAS_WIDTH / 2) (CANVAS_HEIGHT / 2) ∈
        drawCanvasFrame measureAtBase imgs wm caps d t) := by
  refine ⟨?_, ?_, ?_, ?_⟩
  · cases wm <;> cases hcap : activeWordAt t caps <;>
      simp [drawCanvasFrame, habs, hcap]
  · intro img dx dy dw dh hmem
    cases wm with
    | none =>
      exfalso
      cases hcap : activeWordAt t caps <;>
        simp [drawCanvasFrame, habs, hcap] at hmem
    | some w =>
      cases hcap : activeWordAt t caps <;>
        simp [drawCanvasFrame, habs, hcap] at hmem <;>
        simp [hmem.1]
  · rintro w rfl
    cases hcap : activeWordAt t caps <;> simp [drawCanvasFrame, habs, hcap]
  · intro w hcap
    cases wm <;> simp [drawCanvasFrame, habs, hcap]

/-- C9 witness: empty image list (so the handle at the computed index is
absent), a loaded watermark and an active caption word. -/
theorem C9_draw_frame_skips_missing_image_witness :
    jsIndex ([] : List Image) (getCurrentImageIndex 0 0 5) = none ∧
    (drawCanvasFrame (fun _ => 32) [] (some ⟨200, 100⟩) [⟨"hi", 0, 10⟩] 0 5).take 3 =
      [DrawOp.clearRect 0 0 CANVAS_WIDTH CANVAS_HEIGHT,
       DrawOp.setFillStyle "black",
       DrawOp.fillRect 0 0 CANVAS_WIDTH CANVAS_HEIGHT] :=
  ⟨by simp [jsIndex, getCurrentImageIndex],
   (C9_draw_frame_skips_missing_image (fun _ => 32) [] (some ⟨200, 100⟩)
      [⟨"hi", 0, 10⟩] 0 5 (by simp [jsIndex, getCurrentImageIndex])).1⟩

/-- C4 counterexample: `recorder.start()` occurs among the first 12 events of the
run, *before* the offline audio has become playable (`canplaythrough` is only
awaited afterwards) — so the Preparing phase has not fully completed when the
encoder sink receives `start()`. -/
theorem C4_counterexample :
    ExportEvent.recorderStart ∈ (startDownloadTrace []).take 12 ∧
    ExportEvent.audioBecomesPlayable ∉ (startDownloadTrace []).take 12 ∧
    ExportEvent.audioBecomesPlayable ∈ startDownloadTrace [] := by
  refine ⟨?_, ?_, ?_⟩ <;> decide

/-- C4 (amended): in every export run the encoder receives `start()` before any
frame is captured, and the offline audio is playable before any frame is
captured; but `start()` is issued *before* the audio becomes playable
(position 11 versus position 13 in the trace), so Preparing does not fully
complete before the encoder starts. -/
theorem C4_export_order_amended (ts : List ℚ) :
    (startDownloadTrace ts)[11]? = some ExportEvent.recorderStart ∧
    (startDownloadTrace ts)[13]? = some ExportEvent.audioBecomesPlayable ∧
    (∀ i t, (startDownloadTrace ts)[i]? = some (ExportEvent.frameCapture t) →
      15 < i) := by
  refine ⟨rfl, rfl, ?_⟩
  intro i t h
  by_contra hle
  push_neg at hle
  interval_cases i <;> simp [startDownloadTrace] at h

/-- C4 witness: the amended theorem applied to a run with one frame capture. -/
theorem C4_export_order_amended_witness :
    (startDownloadTrace [0])[11]? = some ExportEvent.recorderStart :=
  (C4_export_order_amended [0]).1

/-- The frames captured while recording are exactly the times read before the
first observation with `paused || ended`. -/
lemma renderLoop_frames (obs : List AudioObs) :
    (renderLoop RecorderState.recording obs).1 =
      (obs.takeWhile (fun o => !(o.paused || o.ended))).map AudioObs.currentTime := by
  induction obs with
  | nil => rfl
  | cons o rest ih =>
    cases hpause : o.paused <;> cases hend : o.ended <;>
      simp [renderLoop, List.takeWhile_cons, hpause, hend, ih]

/-- While recording, `recorder.stop()` is called iff some observation reports
`paused || ended`. -/
lemma renderLoop_stops (obs : List AudioObs) :
    (renderLoop RecorderState.recording obs).2 =
      obs.any (fun o => o.paused || o.ended) := by
  induction obs with
  | nil => rfl
  | cons o rest ih =>
    cases hpause : o.paused <;> cases hend : o.ended <;>
      simp [renderLoop, hpause, hend, ih]

/-- If the recorder is no longer in the `recording` state the loop never calls
`recorder.stop()`. -/
lemma renderLoop_inactive (obs : List AudioObs) :
    (renderLoop RecorderState.inactive obs).2 = false := by
  induction obs with
  | nil => rfl
  | cons o rest ih =>
    cases hpause : o.paused <;> cases hend : o.ended <;>
      simp [renderLoop, hpause, hend, ih]

/-- C5: provided the offline audio's `currentTime` is nondecreasing across the
loop's reads (it plays forward and is never seeked), the times passed to
`drawCanvasFrame` are nondecreasing; they are exactly the times read before the
first observation with `paused || ended`; and `recorder.stop()` is called iff
such an observation occurs (while the recorder is recording). -/
theorem C5_render_loop_monotone (obs : List AudioObs)
    (hmono : (obs.map AudioObs.currentTime).Sorted (· ≤ ·)) :
    (renderLoop RecorderState.recording obs).1 =
      (obs.takeWhile (fun o => !(o.paused || o.ended))).map AudioObs.currentTime ∧
    (renderLoop RecorderState.recording obs).1.Sorted (· ≤ ·) ∧
    ((renderLoop RecorderState.recording obs).2 = true ↔
      ∃ o ∈ obs, (o.paused || o.ended) = true) ∧
    (renderLoop RecorderState.inactive obs).2 = false := by
  refine ⟨renderLoop_frames obs, ?_, ?_, renderLoop_inactive obs⟩
  · rw [renderLoop_frames obs]
    exact hmono.sublist ((List.takeWhile_sublist _).map _)
  · rw [renderLoop_stops obs, List.any_eq_true]

/-- C5 witness: the theorem applied to a playback that reads times `0, 1/2`
then finds the audio ended. -/
theorem C5_render_loop_monotone_witness :
    (([⟨0, false, false⟩, ⟨1/2, false, false⟩,
        ⟨1, false, true⟩] : List AudioObs).map AudioObs.currentTime).Sorted (· ≤ ·) ∧
    (renderLoop RecorderState.recording
      [⟨0, false, false⟩, ⟨1/2, false, false⟩, ⟨1, false, true⟩]).1.Sorted (· ≤ ·) := by
  have hm : (([⟨0, false, false⟩, ⟨1/2, false, false⟩,
      ⟨1, false, true⟩] : List AudioObs).map AudioObs.currentTime).Sorted (· ≤ ·) := by
    simp [List.sorted_cons]
    norm_num
  exact ⟨hm, (C5_render_loop_monotone _ hm).2.1⟩

/-- C6 evaluation: the `AudioContext` is closed on the success path (`stop`)
and on the failure path (`error`), and an encoder error rejects the export with
that error without the error handler itself downloading anything; but when the
recorder's stop event is delivered after the error (MediaRecorder inactivates
the recorder on error and then fires `dataavailable` and `stop`), the
unguarded `onstop` handler downloads the partial artifact even though the
export has already rejected. -/
theorem C6_encoder_error_evaluation :
    (runRecorderEvents [RecorderEvent.stop]).audioContextClosed = true ∧
    (runRecorderEvents [RecorderEvent.stop]).downloadTriggered = true ∧
    (runRecorderEvents [RecorderEvent.error "EncoderError"]).audioContextClosed
      = true ∧
    (runRecorderEvents [RecorderEvent.error "EncoderError"]).settled =
      some (Except.error "EncoderError") ∧
    (runRecorderEvents [RecorderEvent.error "EncoderError"]).downloadTriggered
      = false ∧
    (runRecorderEvents [RecorderEvent.error "EncoderError",
        RecorderEvent.stop]).settled = some (Except.error "EncoderError") ∧
    (runRecorderEvents [RecorderEvent.error "EncoderError",
        RecorderEvent.stop]).downloadTriggered = true :=
  ⟨rfl, rfl, rfl, rfl, rfl, rfl, rfl⟩

end VideoEditor
